import Mathlib

/-!
Verification development for the MolDrug fitness / cost-aggregation engine.

Shallow embedding conventions:
* Python floats produced by chemistry code and the docking engine are
  idealized as rationals (`ℚ`); `np.inf` is the extra constructor of `PyF`.
* The final geometric-mean root `base ** (1 / exponent)` is real-valued
  (`pyRoot`), since the root of a rational is irrational in general.
* Python exceptions are `Except String`; a raised `ZeroDivisionError`
  (float division by zero, or `0.0` raised to a negative power) is the
  error value `"ZeroDivisionError"`.
* External collaborators (RDKit embedding, clash filter, vina subprocess,
  meeko preparation, the VINA_OUT parser, QED and the synthetic
  accessibility scorer) are oracle parameters of the model functions.
-/

namespace MolDrug

/-! ## Desirability functions (src/utils.py, lines 321-350)

The exponent parameters `r`, `r1`, `r2` are embedded as natural numbers
(every configuration in the repository uses the default `r = 1`). -/

def LargerTheBest (Value LowerLimit Target : ℚ) (r : ℕ := 1) : ℚ :=
  if Value < LowerLimit then 0
  else if LowerLimit ≤ Value ∧ Value ≤ Target then
    ((Value - LowerLimit) / (Target - LowerLimit)) ^ r
  else 1

def SmallerTheBest (Value Target UpperLimit : ℚ) (r : ℕ := 1) : ℚ :=
  if Value < Target then 1
  else if Target ≤ Value ∧ Value ≤ UpperLimit then
    ((UpperLimit - Value) / (UpperLimit - Target)) ^ r
  else 0

def NominalTheBest (Value LowerLimit Target UpperLimit : ℚ) (r1 : ℕ := 1) (r2 : ℕ := 1) : ℚ :=
  if Value < LowerLimit then 0
  else if LowerLimit ≤ Value ∧ Value ≤ Target then
    ((Value - LowerLimit) / (Target - LowerLimit)) ^ r1
  else if Target ≤ Value ∧ Value ≤ UpperLimit then
    ((UpperLimit - Value) / (UpperLimit - Target)) ^ r2
  else 0

/-! ## Python float values

`PyF` is a Python float that is either finite or `np.inf` (the only
infinity the fitness module ever produces). `PyR` is the type of the
`cost` attribute: a real number or `np.inf`. -/

inductive PyF where
  | num (q : ℚ)
  | inf
deriving DecidableEq, Repr

inductive PyR where
  | num (x : ℝ)
  | inf

/-- Coercion of an engine score into a `cost` value
(`Individual.cost = Individual.vina_score` in `CostOnlyVina`). -/
def PyF.toR : PyF → PyR
  | .num q => .num (q : ℝ)
  | .inf => .inf

/-- Python `<` on floats, where one side can be `np.inf`
(`vina_score < vina_score_pdbqt[0]` in `vinadock`). -/
def PyF.pylt : PyF → PyF → Bool
  | .num a, .num b => a < b
  | .num _, .inf => true
  | .inf, _ => false

/-! ## Desirability specification (the `desirability` dictionaries of
`src/moldrug/fitness.py` and the shape dispatch
`utils.DerringerSuichDesirability()[key]`, whose keys — visible in the
default dictionaries of `Cost` and `CostMultiReceptors` — are the names
of the three desirability functions of src/utils.py). -/

inductive DShape where
  | larger (LowerLimit Target : ℚ) (r : ℕ)
  | smaller (Target UpperLimit : ℚ) (r : ℕ)
  | nominal (LowerLimit Target UpperLimit : ℚ) (r1 r2 : ℕ)
deriving DecidableEq, Repr

def applyShape : DShape → ℚ → ℚ
  | .larger LowerLimit Target r, v => LargerTheBest v LowerLimit Target r
  | .smaller Target UpperLimit r, v => SmallerTheBest v Target UpperLimit r
  | .nominal LowerLimit Target UpperLimit r1 r2, v =>
      NominalTheBest v LowerLimit Target UpperLimit r1 r2

/-- The desirability functions applied to a value that can be `np.inf`
(in `Cost`, a failed docking run leaves `vina_score = np.inf`).
In Python, `inf < x` and `x <= inf <= y` are both false for finite
`x`, `y`, so `inf` always reaches the final `else` branch: `1.0` for
`LargerTheBest`, `0.0` for the other two. -/
def applyShapeF : DShape → PyF → ℚ
  | s, .num v => applyShape s v
  | .larger _ _ _, .inf => 1
  | .smaller _ _ _, .inf => 0
  | .nominal _ _ _ _ _, .inf => 0

/-- One entry of a `desirability` dictionary: the weight `w` and the
shape key with its parameters. Weights are embedded as integers (every
configuration in the repository uses integer weights). -/
structure DSpec where
  w : ℤ
  shape : DShape
deriving DecidableEq, Repr

/-- One response variable as consumed by the aggregation loop of the
cost functions: its configured `DSpec` together with the value of the
candidate attribute the loop reads (`getattr(Individual, variable)`). -/
structure DVar where
  w : ℤ
  shape : DShape
  value : PyF
deriving DecidableEq, Repr

/-- The desirability `d` computed for one response variable:
`d = utils.DerringerSuichDesirability()[key](getattr(Individual, variable), **params)`. -/
def DVar.d (v : DVar) : ℚ := applyShapeF v.shape v.value

/-- Python `d ** w` for a desirability `d ≥ 0` and an integer weight:
`0.0` raised to a negative power raises `ZeroDivisionError`. -/
def pyPowW (d : ℚ) (w : ℤ) : Except String ℚ :=
  if d = 0 ∧ w < 0 then .error "ZeroDivisionError" else .ok (d ^ w)

/-- The accumulation loop shared by `Cost`, `CostMultiReceptors` and
`CostMultiReceptorsOnlyVina`:

    base *= d**w
    exponent += w

run over the response variables in order, threading `(base, exponent)`. -/
def aggFold : List DVar → ℚ × ℤ → Except String (ℚ × ℤ)
  | [], be => .ok be
  | v :: vs, (base, exponent) =>
    match pyPowW v.d v.w with
    | .error e => .error e
    | .ok p => aggFold vs (base * p, exponent + v.w)

/-- Python `base ** (1 / exponent)` on floats, as a real number. -/
noncomputable def pyRoot (base : ℚ) (exponent : ℤ) : ℝ :=
  (base : ℝ) ^ ((1 : ℝ) / (exponent : ℝ))

/-- The weighted-geometric-mean aggregation of the cost functions:

    D = base**(1/exponent)
    Individual.cost = 1 - D

`1 / exponent` raises `ZeroDivisionError` when the weights sum to zero,
and `base ** (1/exponent)` raises it when `base = 0` and the weight sum
is negative (`0.0` to a negative power). -/
noncomputable def costAgg (vars : List DVar) : Except String PyR :=
  match aggFold vars (1, 0) with
  | .error e => .error e
  | .ok (base, exponent) =>
    if exponent = 0 then .error "ZeroDivisionError"
    else if base = 0 ∧ exponent < 0 then .error "ZeroDivisionError"
    else .ok (.num (1 - pyRoot base exponent))

/-! ## The candidate record (`utils.Individual`, src/utils.py lines 28-65)

`mol` is the RDKit molecular graph, abstracted to an identifier; the
chemistry functions reading it (`Descriptors.MolWt`, `QED.weights_mean`,
the synthetic-accessibility scorer) are oracle parameters of the cost
models. `pdbqt` holds a text blob after construction and a list of
blobs after a multi-receptor evaluation; `vina_score` likewise. -/

structure Mol where
  id : ℕ
deriving DecidableEq, Repr

inductive PdbqtV where
  | s (t : String)
  | m (l : List PdbqtV)

inductive VinaV where
  | s (v : PyF)
  | m (l : List PyF)
deriving DecidableEq, Repr

structure Individual where
  smiles : String
  mol : Mol
  idx : ℕ
  pdbqt : PdbqtV
  cost : PyR
  qed : Option ℚ := none
  sa_score : Option ℚ := none
  vina_score : Option VinaV := none

/-! ## Conformer generator (src/moldrug/fitness.py, lines 30-81)

A conformer is abstracted to its id; the constrained embedding
`AllChem.ConstrainedEmbed(temp_mol, core1, randomseed=i)` is the oracle
`embed : ℕ → Conf` (seed `i` ↦ resulting conformer, each attempt assumed
to succeed), and `AllChem.GetConformerRMS` is `rms : Conf → Conf → ℚ`. -/

abbrev Conf := ℕ

/-- `duplicate_conformers`: pairwise RMS of the newly added conformer
against every previously accepted one; `True` if any falls below the
limit. -/
def duplicate_conformers (rms : Conf → Conf → ℚ) (accepted : List Conf)
    (newConf : Conf) (rms_limit : ℚ := 0.5) : Bool :=
  accepted.any fun c => rms newConf c < rms_limit

/-- The loop body of `generate_conformers` after the first `k` attempts:
embed with seed `k`, append the conformer, and drop it again when a
dedup threshold is set and `duplicate_conformers` fires. -/
def genConfAux (embed : ℕ → Conf) (rms : Conf → Conf → ℚ)
    (minimum_conf_rms : Option ℚ) : ℕ → List Conf
  | 0 => []
  | k + 1 =>
    let acc := genConfAux embed rms minimum_conf_rms k
    let c := embed k
    match minimum_conf_rms with
    | none => acc ++ [c]
    | some lim => if duplicate_conformers rms acc c lim then acc else acc ++ [c]

/-- `generate_conformers`: the surviving conformers of the `num_conf`
embedding attempts (seed = attempt index). -/
def generate_conformers (embed : ℕ → Conf) (rms : Conf → Conf → ℚ)
    (num_conf : ℕ) (minimum_conf_rms : Option ℚ := none) : List Conf :=
  genConfAux embed rms minimum_conf_rms num_conf

/-! ## Docking invoker (`vinadock`, src/moldrug/fitness.py lines 191-318)

The vina subprocess (`utils.run`) is the oracle `run`; `run c` is
`.error msg` when the invocation for conformer `c` exits nonzero.
`utils.compressed_pickle(title, error)` writes `title + ".pbz2"`; the
model functions return the list of diagnostic-bundle file names written.
The meeko preparation (`preparator.write_pdbqt_string()`) is the oracle
`prep`, and the `utils.VINA_OUT(...).BestEnergy()` parse of an output
file (a parser not present under src/) is the oracle `outBest` /
the `bestEnergy` parameter. -/

/-- Diagnostic bundle name of the unconstrained branch:
`compressed_pickle(f'{Individual.idx}_error', error)`. -/
def vinaErrorBundle (idx : ℕ) : String := toString idx ++ "_error.pbz2"

/-- Diagnostic bundle name of the constrained branch:
`compressed_pickle(f'{Individual.idx}_conf_{conf.GetId()}_error', error)`. -/
def vinaConfErrorBundle (idx : ℕ) (confId : Conf) : String :=
  toString idx ++ "_conf_" ++ toString confId ++ "_error.pbz2"

/-- Unconstrained (`constraint=False`) branch of `vinadock`: write the
candidate's pdbqt, run vina once; on a nonzero exit write one bundle and
return the sentinel `(np.inf, Individual.pdbqt)`; on success return the
parsed best energy and its pose text. The function is total: no
exception escapes this branch. -/
def vinadockUnconstrained (idx : ℕ) (pdbqt : String)
    (runResult : Except String Unit) (bestEnergy : ℚ × String) :
    (PyF × String) × List String :=
  match runResult with
  | .error _ => ((.inf, pdbqt), [vinaErrorBundle idx])
  | .ok _ => ((.num bestEnergy.1, bestEnergy.2), [])

/-- The per-conformer loop of the constrained branch of `vinadock`,
threading `vina_score_pdbqt`. On a failed invocation the diagnostic
bundle for that conformer is written, after which the warning message
interpolates the undefined name `i`
(`f"...{Individual.idx}_conf_{i}_error.pbz2..."`, line 269), so a
`NameError` propagates out of the loop: neither the remaining conformers
nor the sentinel assignment below the warning are reached. On success
the best (lowest) score so far is kept, paired with the refined output
pose in `local_only` mode and the prepared input pose otherwise. -/
def vinaConstrLoop (idx : ℕ) (constraint_type : String)
    (prep : Conf → String) (run : Conf → Except String ℚ)
    (outBest : Conf → String) :
    List Conf → PyF × String → List String × Except String (PyF × String)
  | [], best => ([], .ok best)
  | c :: cs, best =>
    match run c with
    | .error _ => ([vinaConfErrorBundle idx c], .error "NameError")
    | .ok vina_score =>
      let best' :=
        if (PyF.num vina_score).pylt best.1 then
          (PyF.num vina_score,
           if constraint_type = "local_only" then outBest c else prep c)
        else best
      vinaConstrLoop idx constraint_type prep run outBest cs best'

/-- Constrained (`constraint=True`) branch of `vinadock`: check
`constraint_type`, generate constrained conformers, drop the ones the
clash filter rejects, then run the per-conformer loop starting from the
sentinel `(np.inf, Individual.pdbqt)`. -/
def vinadockConstrained (idx : ℕ) (origPdbqt : String)
    (constraint_type : String) (embed : ℕ → Conf) (rms : Conf → Conf → ℚ)
    (num_conf : ℕ) (minimum_conf_rms : Option ℚ) (clash : Conf → Bool)
    (prep : Conf → String) (run : Conf → Except String ℚ)
    (outBest : Conf → String) : List String × Except String (PyF × String) :=
  if constraint_type = "score_only" ∨ constraint_type = "local_only" then
    vinaConstrLoop idx constraint_type prep run outBest
      ((generate_conformers embed rms num_conf minimum_conf_rms).filter fun c => !clash c)
      (PyF.inf, origPdbqt)
  else
    ([], .error "constraint_type only admit two possible values: score_only, local_only.")

/-! ## Cost aggregator entry points (src/moldrug/fitness.py lines 321-939)

Each model takes the outputs of the external collaborators as
parameters: `qedVal` (`QED.weights_mean(Individual.mol)`), `saVal`
(`sascorer.calculateScore(Individual.mol)`), `molWt`
(`Descriptors.MolWt(Individual.mol)`), and the `(vina_score, pdbqt)`
pair(s) `vinadock` returns. An `Except.error` value is a Python
exception escaping the entry point; the `Bool` components record
whether `vinadock` was invoked. -/

/-- The `desirability` dictionary of `Cost`: the three fixed response
variables. -/
structure CostDSpec where
  qed : DSpec
  sa_score : DSpec
  vina_score : DSpec
deriving DecidableEq, Repr

/-- `Cost`: writes `qed`, `sa_score`, `vina_score` and `pdbqt` onto the
candidate, then aggregates the three desirabilities into
`cost = 1 - D`. -/
noncomputable def Cost (ind : Individual) (qedVal saVal : ℚ)
    (dockResult : PyF × String) (desirability : CostDSpec) :
    Except String Individual :=
  let ind1 := { ind with
    qed := some qedVal
    sa_score := some saVal
    vina_score := some (.s dockResult.1)
    pdbqt := .s dockResult.2 }
  match costAgg
      [⟨desirability.qed.w, desirability.qed.shape, .num qedVal⟩,
       ⟨desirability.sa_score.w, desirability.sa_score.shape, .num saVal⟩,
       ⟨desirability.vina_score.w, desirability.vina_score.shape, dockResult.1⟩] with
  | .error e => .error e
  | .ok c => .ok { ind1 with cost := c }

/-- The docking path of `CostOnlyVina`: dock, then
`Individual.cost = Individual.vina_score`. -/
def costOnlyVinaDock (ind : Individual) (dockResult : PyF × String) :
    Individual × Bool :=
  ({ ind with
      vina_score := some (.s dockResult.1)
      pdbqt := .s dockResult.2
      cost := dockResult.1.toR }, true)

/-- `CostOnlyVina`: the molecular-weight gate (`if wt_cutoff:` — Python
truthiness, so `None` and `0` both fall through to docking) followed by
the docking path. On the gate path `vina_score = cost = np.inf` and
vina is never invoked. -/
def CostOnlyVina (ind : Individual) (molWt : ℚ) (dockResult : PyF × String)
    (wt_cutoff : Option ℚ) : Individual × Bool :=
  match wt_cutoff with
  | some c =>
    if c ≠ 0 then
      if molWt > c then
        ({ ind with vina_score := some (.s .inf), cost := .inf }, false)
      else costOnlyVinaDock ind dockResult
    else costOnlyVinaDock ind dockResult
  | none => costOnlyVinaDock ind dockResult

/-- A receptor's optimization direction tag (`vina_score_type`). -/
inductive VType where
  | min
  | max
deriving DecidableEq, Repr

/-- The receptor-tagged layer of a multi-receptor `desirability`
dictionary (`{'min': {...}, 'max': {...}}`). -/
structure MRVDSpec where
  minS : DSpec
  maxS : DSpec
deriving DecidableEq, Repr

def MRVDSpec.get (s : MRVDSpec) : VType → DSpec
  | .min => s.minS
  | .max => s.maxS

/-- The `desirability` dictionary of `CostMultiReceptors`: `qed`,
`sa_score` and the nested `vina_scores` section. -/
structure CostMRDSpec where
  qed : DSpec
  sa_score : DSpec
  vina_scores : MRVDSpec
deriving DecidableEq, Repr

/-- The response variables contributed by
`for vs, vst in zip(Individual.vina_score, vina_score_type)`. -/
def mrVinaVars (dspec : MRVDSpec) (scores : List PyF)
    (vina_score_type : List VType) : List DVar :=
  (scores.zip vina_score_type).map fun p =>
    ⟨(dspec.get p.2).w, (dspec.get p.2).shape, p.1⟩

/-- `CostMultiReceptors`: one `vinadock` call per receptor, then the
aggregation over `qed`, `sa_score` and every tagged vina score. -/
noncomputable def CostMultiReceptors (ind : Individual) (qedVal saVal : ℚ)
    (dockResults : List (PyF × String)) (vina_score_type : List VType)
    (desirability : CostMRDSpec) : Except String Individual :=
  let scores := dockResults.map Prod.fst
  let ind1 := { ind with
    qed := some qedVal
    sa_score := some saVal
    vina_score := some (.m scores)
    pdbqt := .m (dockResults.map fun p : PyF × String => PdbqtV.s p.2) }
  match costAgg
      ([⟨desirability.qed.w, desirability.qed.shape, .num qedVal⟩,
        ⟨desirability.sa_score.w, desirability.sa_score.shape, .num saVal⟩] ++
       mrVinaVars desirability.vina_scores scores vina_score_type) with
  | .error e => .error e
  | .ok c => .ok { ind1 with cost := c }

/-- `CostMultiReceptorsOnlyVina`: the same molecular-weight gate as
`CostOnlyVina` (on the gate path every receptor gets `np.inf` and a copy
of the current pdbqt, and `cost = np.inf`), otherwise one `vinadock`
call per receptor and the aggregation over the tagged vina scores. -/
noncomputable def CostMultiReceptorsOnlyVina (ind : Individual) (molWt : ℚ)
    (dockResults : List (PyF × String)) (vina_score_type : List VType)
    (desirability : MRVDSpec) (wt_cutoff : Option ℚ) :
    Bool × Except String Individual :=
  let nReceptors := dockResults.length
  let gate : Individual :=
    { ind with
        vina_score := some (.m (List.replicate nReceptors .inf))
        pdbqt := .m (List.replicate nReceptors ind.pdbqt)
        cost := .inf }
  let dockPath : Bool × Except String Individual :=
    let scores := dockResults.map Prod.fst
    let ind1 := { ind with
      vina_score := some (.m scores)
      pdbqt := .m (dockResults.map fun p : PyF × String => PdbqtV.s p.2) }
    match costAgg (mrVinaVars desirability scores vina_score_type) with
    | .error e => (true, .error e)
    | .ok c => (true, .ok { ind1 with cost := c })
  match wt_cutoff with
  | some c =>
    if c ≠ 0 then
      if molWt > c then (false, .ok gate) else dockPath
    else dockPath
  | none => dockPath

/-! ## Derived quantities and validity predicates -/

/-- The sum of the configured weights (`exponent` at the end of the
aggregation loop, started from `0`). -/
def sumW (vars : List DVar) : ℤ := (vars.map DVar.w).sum

/-- The product of the weighted desirabilities (`base` at the end of the
aggregation loop, started from `1`). -/
def prodDW (vars : List DVar) : ℚ := (vars.map fun v => v.d ^ v.w).prod

/-- The parameter ordering every shape assumes
(`lowerLimit < target < upperLimit`, spec §4.4.1); under it the Python
functions are total (no `0/0`) and land in `[0, 1]`. -/
def DShape.valid : DShape → Prop
  | .larger LowerLimit Target _ => LowerLimit < Target
  | .smaller Target UpperLimit _ => Target < UpperLimit
  | .nominal LowerLimit Target UpperLimit _ _ =>
      LowerLimit < Target ∧ Target < UpperLimit

/-- A well-formed desirability entry: positive weight and ordered shape
parameters. -/
def DSpec.good (s : DSpec) : Prop := 0 < s.w ∧ s.shape.valid

/-- The property claimed of the `cost` attribute: in `[0, 1]` or
`np.inf`. -/
def costOk : PyR → Prop
  | .num x => 0 ≤ x ∧ x ≤ 1
  | .inf => True

/-- Whether a vina invocation succeeded. -/
def runOk : Except String ℚ → Bool
  | .ok _ => true
  | .error _ => false

/-- The identity fields of a candidate (`smiles`, `mol`, `idx`) carried
over unchanged from `a` to `b`. -/
def sameIdentity (a b : Individual) : Prop :=
  b.smiles = a.smiles ∧ b.mol = a.mol ∧ b.idx = a.idx

/-- A cost-function result that preserved the candidate's identity
fields (trivially so when the call raised). -/
def preservesId (ind : Individual) : Except String Individual → Prop
  | .error _ => True
  | .ok ind' => sameIdentity ind ind'

/-! ## Concrete inputs used by counterexamples and witnesses -/

/-- A concrete candidate: `Individual(smiles='C', idx=7)` with a pdbqt
blob, before evaluation. -/
def testInd : Individual :=
  { smiles := "C", mol := ⟨0⟩, idx := 7, pdbqt := .s "origpose", cost := .inf }

/-- The default `desirability` of `Cost`
(`qed: LargerTheBest(0.1, 0.75)`, `sa_score: SmallerTheBest(3, 7)`,
`vina_score: SmallerTheBest(-12, -6)`, all weights 1). -/
def defaultCostDSpec : CostDSpec :=
  { qed := ⟨1, .larger (1/10) (3/4) 1⟩
    sa_score := ⟨1, .smaller 3 7 1⟩
    vina_score := ⟨1, .smaller (-12) (-6) 1⟩ }

/-- The default `vina_scores` section of the multi-receptor cost
functions (`min: SmallerTheBest(-12, -6)`, `max: LargerTheBest(-4, 0)`,
weights 1). -/
def defaultMRVDSpec : MRVDSpec :=
  { minS := ⟨1, .smaller (-12) (-6) 1⟩
    maxS := ⟨1, .larger (-4) 0 1⟩ }

/-- The default `desirability` of `CostMultiReceptors`. -/
def defaultCostMRDSpec : CostMRDSpec :=
  { qed := ⟨1, .larger (1/10) (3/4) 1⟩
    sa_score := ⟨1, .smaller 3 7 1⟩
    vina_scores := defaultMRVDSpec }

/-- Response variables of a `Cost` configuration whose three weights are
all zero (`qed: LargerTheBest(0, 1)` at value `2`,
`sa_score: SmallerTheBest(3, 7)` at value `2`, and the default vina
shape after a failed docking). -/
def zeroWeightVars : List DVar :=
  [⟨0, .larger 0 1 1, .num 2⟩,
   ⟨0, .smaller 3 7 1, .num 2⟩,
   ⟨0, .smaller (-12) (-6) 1, .inf⟩]

/-- Response variables of a `Cost` configuration in which the vina
variable carries weight `-1` (nonzero) and its desirability is `0`
(failed docking under `SmallerTheBest(-12, -6)`). -/
def negWeightVars : List DVar :=
  [⟨1, .larger 0 1 1, .num 2⟩,
   ⟨-1, .smaller (-12) (-6) 1, .inf⟩]

/-- Two response variables with desirabilities `1.0` and `0.0` and equal
positive weights (`SmallerTheBest(3, 7)` at values `2` and `8`). -/
def vetoVars : List DVar :=
  [⟨1, .smaller 3 7 1, .num 2⟩,
   ⟨1, .smaller 3 7 1, .num 8⟩]

/-- A vina oracle for the constrained-loop scenarios: the invocation for
conformer `0` exits nonzero, every other conformer scores `-9`. -/
def failFirstRun : Conf → Except String ℚ :=
  fun c => if c = 0 then .error "vina exited nonzero" else .ok (-9)

/-! ## Branch lemmas for the desirability functions -/

theorem STB_of_lt (v T U : ℚ) (r : ℕ) (h : v < T) :
    SmallerTheBest v T U r = 1 := by
  simp [SmallerTheBest, h]

theorem STB_of_mid (v T U : ℚ) (r : ℕ) (h1 : T ≤ v) (h2 : v ≤ U) :
    SmallerTheBest v T U r = ((U - v) / (U - T)) ^ r := by
  have h0 : ¬ v < T := not_lt.2 h1
  simp [SmallerTheBest, h0, h1, h2]

theorem STB_of_gt (v T U : ℚ) (r : ℕ) (hT : T < U) (h : U < v) :
    SmallerTheBest v T U r = 0 := by
  have h0 : ¬ v < T := by push_neg; linarith
  have h1 : ¬ (T ≤ v ∧ v ≤ U) := by rintro ⟨_, hh⟩; linarith
  simp [SmallerTheBest, h0, h1]

theorem LTB_of_lt (v L T : ℚ) (r : ℕ) (h : v < L) :
    LargerTheBest v L T r = 0 := by
  simp [LargerTheBest, h]

theorem LTB_of_mid (v L T : ℚ) (r : ℕ) (h1 : L ≤ v) (h2 : v ≤ T) :
    LargerTheBest v L T r = ((v - L) / (T - L)) ^ r := by
  have h0 : ¬ v < L := not_lt.2 h1
  simp [LargerTheBest, h0, h1, h2]

theorem LTB_of_gt (v L T : ℚ) (r : ℕ) (hL : L < T) (h : T < v) :
    LargerTheBest v L T r = 1 := by
  have h0 : ¬ v < L := by push_neg; linarith
  have h1 : ¬ (L ≤ v ∧ v ≤ T) := by rintro ⟨_, hh⟩; linarith
  simp [LargerTheBest, h0, h1]

theorem STB_range (v T U : ℚ) (r : ℕ) (hT : T < U) :
    0 ≤ SmallerTheBest v T U r ∧ SmallerTheBest v T U r ≤ 1 := by
  rcases lt_or_le v T with h | h
  · rw [STB_of_lt v T U r h]; exact ⟨zero_le_one, le_refl 1⟩
  · rcases le_or_lt v U with h' | h'
    · rw [STB_of_mid v T U r h h']
      have hr0 : (0 : ℚ) ≤ (U - v) / (U - T) :=
        div_nonneg (by linarith) (by linarith)
      have hr1 : (U - v) / (U - T) ≤ 1 :=
        (div_le_one (by linarith)).2 (by linarith)
      exact ⟨pow_nonneg hr0 r, pow_le_one₀ hr0 hr1⟩
    · rw [STB_of_gt v T U r hT h']; exact ⟨le_refl 0, zero_le_one⟩

theorem LTB_range (v L T : ℚ) (r : ℕ) (hL : L < T) :
    0 ≤ LargerTheBest v L T r ∧ LargerTheBest v L T r ≤ 1 := by
  rcases lt_or_le v L with h | h
  · rw [LTB_of_lt v L T r h]; exact ⟨le_refl 0, zero_le_one⟩
  · rcases le_or_lt v T with h' | h'
    · rw [LTB_of_mid v L T r h h']
      have hr0 : (0 : ℚ) ≤ (v - L) / (T - L) :=
        div_nonneg (by linarith) (by linarith)
      have hr1 : (v - L) / (T - L) ≤ 1 :=
        (div_le_one (by linarith)).2 (by linarith)
      exact ⟨pow_nonneg hr0 r, pow_le_one₀ hr0 hr1⟩
    · rw [LTB_of_gt v L T r hL h']; exact ⟨zero_le_one, le_refl 1⟩

theorem STB_anti (T U : ℚ) (r : ℕ) (hT : T < U) (v1 v2 : ℚ) (hv : v1 ≤ v2) :
    SmallerTheBest v2 T U r ≤ SmallerTheBest v1 T U r := by
  rcases lt_or_le v1 T with h1 | h1
  · rw [STB_of_lt v1 T U r h1]; exact (STB_range v2 T U r hT).2
  · rcases le_or_lt v1 U with h1' | h1'
    · rw [STB_of_mid v1 T U r h1 h1']
      rcases le_or_lt v2 U with h2' | h2'
      · rw [STB_of_mid v2 T U r (le_trans h1 hv) h2']
        exact pow_le_pow_left₀ (div_nonneg (by linarith) (by linarith))
          ((div_le_div_iff_of_pos_right (by linarith)).2 (by linarith)) r
      · rw [STB_of_gt v2 T U r hT h2']
        exact pow_nonneg (div_nonneg (by linarith) (by linarith)) r
    · rw [STB_of_gt v1 T U r hT h1', STB_of_gt v2 T U r hT (lt_of_lt_of_le h1' hv)]

theorem LTB_mono (L T : ℚ) (r : ℕ) (hL : L < T) (v1 v2 : ℚ) (hv : v1 ≤ v2) :
    LargerTheBest v1 L T r ≤ LargerTheBest v2 L T r := by
  rcases lt_or_le v1 L with h1 | h1
  · rw [LTB_of_lt v1 L T r h1]; exact (LTB_range v2 L T r hL).1
  · rcases le_or_lt v1 T with h1' | h1'
    · rw [LTB_of_mid v1 L T r h1 h1']
      rcases le_or_lt v2 T with h2' | h2'
      · rw [LTB_of_mid v2 L T r (le_trans h1 hv) h2']
        exact pow_le_pow_left₀ (div_nonneg (by linarith) (by linarith))
          ((div_le_div_iff_of_pos_right (by linarith)).2 (by linarith)) r
      · rw [LTB_of_gt v2 L T r hL h2']
        exact pow_le_one₀ (div_nonneg (by linarith) (by linarith))
          ((div_le_one (by linarith)).2 (by linarith))
    · rw [LTB_of_gt v1 L T r hL h1', LTB_of_gt v2 L T r hL (lt_of_lt_of_le h1' hv)]

/-- C6: for `Target < UpperLimit` (resp. `LowerLimit < Target`) and
exponent `r > 0`, `SmallerTheBest` is monotonically non-increasing in
the value and `LargerTheBest` is monotonically non-decreasing, and both
always return a result in `[0, 1]`. -/
theorem C6_desirability_monotone_bounded :
    (∀ (T U : ℚ) (r : ℕ), T < U → 0 < r →
      (∀ v1 v2 : ℚ, v1 ≤ v2 →
        SmallerTheBest v2 T U r ≤ SmallerTheBest v1 T U r) ∧
      (∀ v : ℚ, 0 ≤ SmallerTheBest v T U r ∧ SmallerTheBest v T U r ≤ 1)) ∧
    (∀ (L T : ℚ) (r : ℕ), L < T → 0 < r →
      (∀ v1 v2 : ℚ, v1 ≤ v2 →
        LargerTheBest v1 L T r ≤ LargerTheBest v2 L T r) ∧
      (∀ v : ℚ, 0 ≤ LargerTheBest v L T r ∧ LargerTheBest v L T r ≤ 1)) := by
  constructor
  · intro T U r hT _
    exact ⟨fun v1 v2 hv => STB_anti T U r hT v1 v2 hv,
           fun v => STB_range v T U r hT⟩
  · intro L T r hL _
    exact ⟨fun v1 v2 hv => LTB_mono L T r hL v1 v2 hv,
           fun v => LTB_range v L T r hL⟩

/-- Witness for C6 at the shipped `sa_score` shape
`SmallerTheBest(·, 3, 7)` and the shipped `qed` shape
`LargerTheBest(·, 0.1, 0.75)`. -/
theorem C6_desirability_monotone_bounded_witness :
    SmallerTheBest 5 3 7 1 ≤ SmallerTheBest 4 3 7 1 ∧
    (0 ≤ SmallerTheBest 10 3 7 1 ∧ SmallerTheBest 10 3 7 1 ≤ 1) ∧
    LargerTheBest (2/10) (1/10) (3/4) 1 ≤ LargerTheBest (3/10) (1/10) (3/4) 1 ∧
    (0 ≤ LargerTheBest 1 (1/10) (3/4) 1 ∧ LargerTheBest 1 (1/10) (3/4) 1 ≤ 1) :=
  ⟨(C6_desirability_monotone_bounded.1 3 7 1 (by norm_num) (by norm_num)).1
      4 5 (by norm_num),
   (C6_desirability_monotone_bounded.1 3 7 1 (by norm_num) (by norm_num)).2 10,
   (C6_desirability_monotone_bounded.2 (1/10) (3/4) 1 (by norm_num)
      (by norm_num)).1 (2/10) (3/10) (by norm_num),
   (C6_desirability_monotone_bounded.2 (1/10) (3/4) 1 (by norm_num)
      (by norm_num)).2 1⟩

/-- C7: for every `Target < UpperLimit` (with the default exponent
`r = 1`), `SmallerTheBest(Target, Target, UpperLimit) = 1.0` and
`SmallerTheBest(UpperLimit, Target, UpperLimit) = 0.0`; in particular
`SmallerTheBest(3,3,7) = 1`, `SmallerTheBest(7,3,7) = 0` and
`SmallerTheBest(5,3,7) = 1/2`. -/
theorem C7_STB_anchor_values :
    (∀ T U : ℚ, T < U →
      SmallerTheBest T T U 1 = 1 ∧ SmallerTheBest U T U 1 = 0) ∧
    SmallerTheBest 3 3 7 1 = 1 ∧ SmallerTheBest 7 3 7 1 = 0 ∧
    SmallerTheBest 5 3 7 1 = 1/2 := by
  refine ⟨fun T U hT => ⟨?_, ?_⟩, ?_, ?_, ?_⟩
  · rw [STB_of_mid T T U 1 (le_refl T) (le_of_lt hT)]
    rw [pow_one, div_self (by linarith)]
  · rw [STB_of_mid U T U 1 (le_of_lt hT) (le_refl U)]
    rw [pow_one, sub_self, zero_div]
  · norm_num [SmallerTheBest]
  · norm_num [SmallerTheBest]
  · norm_num [SmallerTheBest]

/-- Witness for C7 at `Target = 3`, `UpperLimit = 7`. -/
theorem C7_STB_anchor_values_witness :
    SmallerTheBest 3 3 7 1 = 1 ∧ SmallerTheBest 7 3 7 1 = 0 :=
  C7_STB_anchor_values.1 3 7 (by norm_num)

theorem NTB_range (v L T U : ℚ) (r1 r2 : ℕ) (hL : L < T) (hT : T < U) :
    0 ≤ NominalTheBest v L T U r1 r2 ∧ NominalTheBest v L T U r1 r2 ≤ 1 := by
  unfold NominalTheBest
  rcases lt_or_le v L with h | h
  · rw [if_pos h]; exact ⟨le_refl 0, zero_le_one⟩
  · rcases le_or_lt v T with h' | h'
    · rw [if_neg (not_lt.2 h), if_pos ⟨h, h'⟩]
      have hr0 : (0 : ℚ) ≤ (v - L) / (T - L) :=
        div_nonneg (by linarith) (by linarith)
      have hr1 : (v - L) / (T - L) ≤ 1 :=
        (div_le_one (by linarith)).2 (by linarith)
      exact ⟨pow_nonneg hr0 r1, pow_le_one₀ hr0 hr1⟩
    · rcases le_or_lt v U with h'' | h''
      · rw [if_neg (not_lt.2 h), if_neg (fun hh => absurd hh.2 (not_le.2 h')),
          if_pos ⟨le_of_lt h', h''⟩]
        have hr0 : (0 : ℚ) ≤ (U - v) / (U - T) :=
          div_nonneg (by linarith) (by linarith)
        have hr1 : (U - v) / (U - T) ≤ 1 :=
          (div_le_one (by linarith)).2 (by linarith)
        exact ⟨pow_nonneg hr0 r2, pow_le_one₀ hr0 hr1⟩
      · rw [if_neg (not_lt.2 h), if_neg (fun hh => absurd hh.2 (not_le.2 h')),
          if_neg (fun hh => absurd hh.2 (not_le.2 h''))]
        exact ⟨le_refl 0, zero_le_one⟩

theorem applyShape_range (s : DShape) (hs : s.valid) (v : ℚ) :
    0 ≤ applyShape s v ∧ applyShape s v ≤ 1 := by
  cases s with
  | larger LowerLimit Target r => exact LTB_range v LowerLimit Target r hs
  | smaller Target UpperLimit r => exact STB_range v Target UpperLimit r hs
  | nominal LowerLimit Target UpperLimit r1 r2 =>
      exact NTB_range v LowerLimit Target UpperLimit r1 r2 hs.1 hs.2

theorem applyShapeF_range (s : DShape) (hs : s.valid) (v : PyF) :
    0 ≤ applyShapeF s v ∧ applyShapeF s v ≤ 1 := by
  cases v with
  | num q =>
    cases s with
    | larger LowerLimit Target r => exact LTB_range q LowerLimit Target r hs
    | smaller Target UpperLimit r => exact STB_range q Target UpperLimit r hs
    | nominal LowerLimit Target UpperLimit r1 r2 =>
        exact NTB_range q LowerLimit Target UpperLimit r1 r2 hs.1 hs.2
  | inf =>
    cases s with
    | larger _ _ _ => exact ⟨zero_le_one, le_refl 1⟩
    | smaller _ _ _ => exact ⟨le_refl 0, zero_le_one⟩
    | nominal _ _ _ _ _ => exact ⟨le_refl 0, zero_le_one⟩

/-! ## Lemmas about the aggregation loop -/

theorem zpow_unit (d : ℚ) (w : ℤ) (h0 : 0 ≤ d) (h1 : d ≤ 1) (hw : 0 < w) :
    0 ≤ d ^ w ∧ d ^ w ≤ 1 := by
  lift w to ℕ using hw.le with n
  rw [zpow_natCast]
  exact ⟨pow_nonneg h0 n, pow_le_one₀ h0 h1⟩

theorem sumW_nonneg (vars : List DVar) (h : ∀ v ∈ vars, 0 < v.w) :
    0 ≤ sumW vars := by
  induction vars with
  | nil => simp [sumW]
  | cons v vs ih =>
    have hv := h v (by simp)
    have ihh := ih fun u hu => h u (by simp [hu])
    simp only [sumW, List.map_cons, List.sum_cons] at *
    omega

theorem sumW_pos (vars : List DVar) (h : ∀ v ∈ vars, 0 < v.w)
    (hne : vars ≠ []) : 0 < sumW vars := by
  cases vars with
  | nil => exact absurd rfl hne
  | cons v vs =>
    have hv := h v (by simp)
    have hvs := sumW_nonneg vs fun u hu => h u (by simp [hu])
    simp only [sumW, List.map_cons, List.sum_cons] at *
    omega

theorem prodDW_unit (vars : List DVar)
    (h : ∀ v ∈ vars, 0 < v.w ∧ v.shape.valid) :
    0 ≤ prodDW vars ∧ prodDW vars ≤ 1 := by
  induction vars with
  | nil => simp [prodDW]
  | cons v vs ih =>
    have hv := h v (by simp)
    have hd := applyShapeF_range v.shape hv.2 v.value
    have hz := zpow_unit v.d v.w hd.1 hd.2 hv.1
    have ihh := ih fun u hu => h u (by simp [hu])
    simp only [prodDW, List.map_cons, List.prod_cons] at *
    exact ⟨mul_nonneg hz.1 ihh.1, mul_le_one₀ hz.2 ihh.1 ihh.2⟩

theorem prodDW_eq_zero (vars : List DVar) (v0 : DVar) (hmem : v0 ∈ vars)
    (hw : v0.w ≠ 0) (hd : v0.d = 0) : prodDW vars = 0 := by
  unfold prodDW
  apply List.prod_eq_zero
  have : v0.d ^ v0.w = 0 := by rw [hd]; exact zero_zpow v0.w hw
  exact this ▸ List.mem_map_of_mem (fun v => v.d ^ v.w) hmem

theorem aggFold_cons_ok (v : DVar) (vs : List DVar) (base : ℚ) (exponent : ℤ)
    (p : ℚ) (hp : pyPowW v.d v.w = .ok p) :
    aggFold (v :: vs) (base, exponent) = aggFold vs (base * p, exponent + v.w) := by
  rw [aggFold, hp]

theorem aggFold_cons_err (v : DVar) (vs : List DVar) (base : ℚ) (exponent : ℤ)
    (m : String) (hp : pyPowW v.d v.w = .error m) :
    aggFold (v :: vs) (base, exponent) = .error m := by
  rw [aggFold, hp]

/-- The only exception the loop itself can raise is the
`ZeroDivisionError` of `0.0 ** negative`. -/
theorem aggFold_error_msg (vars : List DVar) :
    ∀ (be : ℚ × ℤ) (m : String), aggFold vars be = .error m →
      m = "ZeroDivisionError" := by
  induction vars with
  | nil => intro be m h; simp [aggFold] at h
  | cons v vs ih =>
    intro be m h
    obtain ⟨base, exponent⟩ := be
    by_cases hc : v.d = 0 ∧ v.w < 0
    · rw [aggFold_cons_err v vs base exponent "ZeroDivisionError"
        (by rw [pyPowW, if_pos hc])] at h
      exact (Except.error.injEq _ _ ▸ h).symm
    · rw [aggFold_cons_ok v vs base exponent (v.d ^ v.w)
        (by rw [pyPowW, if_neg hc])] at h
      exact ih _ m h

/-- On the success path the final `exponent` is the initial one plus the
sum of the weights. -/
theorem aggFold_ok_exponent (vars : List DVar) :
    ∀ (base : ℚ) (exponent : ℤ) (b : ℚ) (e : ℤ),
      aggFold vars (base, exponent) = .ok (b, e) → e = exponent + sumW vars := by
  induction vars with
  | nil =>
    intro base exponent b e h
    simp [aggFold, Prod.ext_iff] at h
    obtain ⟨-, h2⟩ := h
    simp [sumW, h2]

  | cons v vs ih =>
    intro base exponent b e h
    by_cases hc : v.d = 0 ∧ v.w < 0
    · rw [aggFold_cons_err v vs base exponent "ZeroDivisionError"
        (by rw [pyPowW, if_pos hc])] at h
      exact absurd h (by simp)
    · rw [aggFold_cons_ok v vs base exponent (v.d ^ v.w)
        (by rw [pyPowW, if_neg hc])] at h
      have := ih _ _ _ _ h
      simp only [sumW, List.map_cons, List.sum_cons] at *
      omega

/-- With positive weights no power can raise, and the loop computes
exactly `(base * prodDW, exponent + sumW)`. -/
theorem aggFold_posW (vars : List DVar) (hw : ∀ v ∈ vars, 0 < v.w) :
    ∀ (base : ℚ) (exponent : ℤ),
      aggFold vars (base, exponent) = .ok (base * prodDW vars, exponent + sumW vars) := by
  induction vars with
  | nil => intro base exponent; simp [aggFold, prodDW, sumW]
  | cons v vs ih =>
    intro base exponent
    have hv := hw v (by simp)
    have hc : ¬ (v.d = 0 ∧ v.w < 0) := fun hh => absurd hv (not_lt.2 hh.2.le)
    rw [aggFold_cons_ok v vs base exponent (v.d ^ v.w) (by rw [pyPowW, if_neg hc])]
    rw [ih (fun u hu => hw u (by simp [hu])) (base * v.d ^ v.w) (exponent + v.w)]
    simp only [prodDW, sumW, List.map_cons, List.prod_cons, List.sum_cons]
    rw [mul_assoc]
    ring_nf

theorem costAgg_posW (vars : List DVar) (hw : ∀ v ∈ vars, 0 < v.w)
    (hne : vars ≠ []) :
    costAgg vars = .ok (.num (1 - pyRoot (prodDW vars) (sumW vars))) := by
  have hs := sumW_pos vars hw hne
  rw [costAgg, aggFold_posW vars hw 1 0]
  simp only [one_mul, zero_add]
  rw [if_neg (by omega), if_neg (by rintro ⟨_, hh⟩; omega)]

/-- With a good configuration the aggregation succeeds and lands in
`[0, 1]`. -/
theorem costAgg_unit (vars : List DVar)
    (h : ∀ v ∈ vars, 0 < v.w ∧ v.shape.valid) (hne : vars ≠ []) :
    ∃ x : ℝ, costAgg vars = .ok (.num x) ∧ 0 ≤ x ∧ x ≤ 1 := by
  refine ⟨1 - pyRoot (prodDW vars) (sumW vars),
    costAgg_posW vars (fun v hv => (h v hv).1) hne, ?_, ?_⟩
  · have hp := prodDW_unit vars h
    have hs := sumW_pos vars (fun v hv => (h v hv).1) hne
    have hb0 : (0 : ℝ) ≤ (prodDW vars : ℝ) := by exact_mod_cast hp.1
    have hb1 : ((prodDW vars : ℚ) : ℝ) ≤ 1 := by exact_mod_cast hp.2
    have he : (0 : ℝ) ≤ 1 / ((sumW vars : ℤ) : ℝ) := by
      have : (0 : ℝ) < ((sumW vars : ℤ) : ℝ) := by exact_mod_cast hs
      positivity
    have := Real.rpow_le_one hb0 hb1 he
    unfold pyRoot
    linarith
  · have hp := prodDW_unit vars h
    have hb0 : (0 : ℝ) ≤ (prodDW vars : ℝ) := by exact_mod_cast hp.1
    have := Real.rpow_nonneg hb0 ((1 : ℝ) / ((sumW vars : ℤ) : ℝ))
    unfold pyRoot
    linarith

/-- Any configuration whose weights sum to zero makes the aggregation
raise `ZeroDivisionError`: either some `0.0 ** negative` inside the
loop, or `1 / exponent` at the end. -/
theorem costAgg_zero_weight_sum (vars : List DVar) (h : sumW vars = 0) :
    costAgg vars = .error "ZeroDivisionError" := by
  rw [costAgg]
  cases hfold : aggFold vars (1, 0) with
  | error m => rw [aggFold_error_msg vars (1, 0) m hfold]
  | ok be =>
    obtain ⟨b, e⟩ := be
    have he : e = 0 := by
      have := aggFold_ok_exponent vars 1 0 b e hfold
      omega
    subst he
    simp

/-- With positive weights, one vanishing desirability drives `base` to
`0`, `D = 0 ** (1/exponent) = 0`, and the cost to exactly `1`. -/
theorem costAgg_veto (vars : List DVar) (hw : ∀ v ∈ vars, 0 < v.w)
    (v0 : DVar) (hmem : v0 ∈ vars) (hd : v0.d = 0) :
    costAgg vars = .ok (.num 1) := by
  have hne : vars ≠ [] := by
    intro hnil
    rw [hnil] at hmem
    exact absurd hmem (List.not_mem_nil v0)
  have hs := sumW_pos vars hw hne
  rw [costAgg_posW vars hw hne,
    prodDW_eq_zero vars v0 hmem (by have := hw v0 hmem; omega) hd]
  have hroot : pyRoot 0 (sumW vars) = 0 := by
    unfold pyRoot
    rw [Rat.cast_zero]
    apply Real.zero_rpow
    apply one_div_ne_zero
    have : (0 : ℝ) < ((sumW vars : ℤ) : ℝ) := by exact_mod_cast hs
    linarith
  rw [hroot]
  norm_num

/-! ## C3: zero weight sum -/

/-- Counterexample to C3: with all three configured weights zero the
aggregation raises `ZeroDivisionError` at `1/exponent`; `D` is never
computed and the cost is not `1`. -/
theorem C3_counterexample :
    costAgg zeroWeightVars = .error "ZeroDivisionError" ∧
    (Except.error "ZeroDivisionError" : Except String PyR) ≠ .ok (.num 1) := by
  constructor
  · have hfold : aggFold zeroWeightVars (1, 0) = .ok (1, 0) := by
      norm_num [zeroWeightVars, aggFold, pyPowW, DVar.d, applyShapeF, applyShape,
        LargerTheBest, SmallerTheBest]
    rw [costAgg, hfold]
    simp
  · simp

/-- C3 (amended): whenever the configured weights sum to zero the
aggregation used by `Cost` raises `ZeroDivisionError` (from
`1/exponent`, or already from `0.0 ** negative` inside the loop); no
combined desirability and no cost are produced. -/
theorem C3_zero_weight_sum_raises (vars : List DVar) (h : sumW vars = 0) :
    costAgg vars = .error "ZeroDivisionError" :=
  costAgg_zero_weight_sum vars h

/-- Witness for C3 at the all-zero-weights configuration. -/
theorem C3_zero_weight_sum_raises_witness :
    sumW zeroWeightVars = 0 ∧
    costAgg zeroWeightVars = .error "ZeroDivisionError" :=
  ⟨by decide, C3_zero_weight_sum_raises zeroWeightVars (by decide)⟩

/-! ## C4: a vanishing desirability with nonzero weight -/

/-- Counterexample to C4: a response variable with desirability `0` and
the nonzero weight `-1` makes the aggregation raise `ZeroDivisionError`
(`0.0 ** -1`), so the cost is not `1`. -/
theorem C4_counterexample :
    DVar.d ⟨-1, .smaller (-12) (-6) 1, .inf⟩ = 0 ∧ ((-1 : ℤ) ≠ 0) ∧
    costAgg negWeightVars = .error "ZeroDivisionError" ∧
    (Except.error "ZeroDivisionError" : Except String PyR) ≠ .ok (.num 1) := by
  refine ⟨by decide, by decide, ?_, by simp⟩
  have hfold : aggFold negWeightVars (1, 0) = .error "ZeroDivisionError" := by
    norm_num [negWeightVars, aggFold, pyPowW, DVar.d, applyShapeF, applyShape,
      LargerTheBest, SmallerTheBest]
  rw [costAgg, hfold]

/-- C4 (amended): in the aggregation used by `Cost`, whenever every
weight is positive and some response variable's desirability is `0`, the
combined desirability `D` is `0` and the reported cost is exactly `1`. -/
theorem C4_zero_desirability_veto (vars : List DVar)
    (hw : ∀ v ∈ vars, 0 < v.w) (v0 : DVar) (hmem : v0 ∈ vars)
    (hd : v0.d = 0) : costAgg vars = .ok (.num 1) :=
  costAgg_veto vars hw v0 hmem hd

/-- Witness for C4 at the claim's particular case: two response
variables with desirabilities `1.0` and `0.0` and equal positive
weights. -/
theorem C4_zero_desirability_veto_witness :
    (∀ v ∈ vetoVars, 0 < v.w) ∧
    DVar.d ⟨1, .smaller 3 7 1, .num 2⟩ = 1 ∧
    DVar.d ⟨1, .smaller 3 7 1, .num 8⟩ = 0 ∧
    costAgg vetoVars = .ok (.num 1) :=
  ⟨by decide, by decide, by decide,
   C4_zero_desirability_veto vetoVars (by decide)
     ⟨1, .smaller 3 7 1, .num 8⟩ (by decide) (by decide)⟩

/-! ## C5: unconstrained docking failure -/

/-- C5: when the unconstrained docking subprocess exits nonzero,
`vinadock` returns the sentinel `(np.inf, Individual.pdbqt)` with the
original pose, writes exactly one diagnostic bundle whose name embeds
the candidate's index, and returns normally (no exception crosses the
boundary: the model function is total). -/
theorem C5_unconstrained_failure (idx : ℕ) (pdbqt : String) (e : String)
    (bestEnergy : ℚ × String) :
    vinadockUnconstrained idx pdbqt (.error e) bestEnergy =
      ((.inf, pdbqt), [vinaErrorBundle idx]) ∧
    vinaErrorBundle idx = toString idx ++ "_error.pbz2" :=
  ⟨rfl, rfl⟩

/-! ## C8: conformer count -/

theorem genConfAux_none_length (embed : ℕ → Conf) (rms : Conf → Conf → ℚ) :
    ∀ k, (genConfAux embed rms none k).length = k := by
  intro k
  induction k with
  | zero => rfl
  | succ n ih => simp [genConfAux, ih]

theorem genConfAux_some_length (embed : ℕ → Conf) (rms : Conf → Conf → ℚ)
    (lim : ℚ) : ∀ k, (genConfAux embed rms (some lim) k).length ≤ k := by
  intro k
  induction k with
  | zero => exact Nat.le_refl 0
  | succ n ih =>
    rw [genConfAux]
    split
    · omega
    · simp only [List.length_append, List.length_singleton]
      omega

/-- C8: when every constrained-embedding attempt succeeds,
`generate_conformers` returns at most `num_conf` conformers, and exactly
`num_conf` when `minimum_conf_rms` is `None`. -/
theorem C8_generate_conformers_count (embed : ℕ → Conf)
    (rms : Conf → Conf → ℚ) (num_conf : ℕ) :
    (generate_conformers embed rms num_conf none).length = num_conf ∧
    ∀ lim : ℚ,
      (generate_conformers embed rms num_conf (some lim)).length ≤ num_conf :=
  ⟨genConfAux_none_length embed rms num_conf,
   fun lim => genConfAux_some_length embed rms lim num_conf⟩

/-! ## C2: range of the written cost -/

/-- Counterexample to C2: `CostOnlyVina` writes `cost = vina_score`, the
raw affinity; at a successful docking score of `-7` the written cost is
`-7`, which is neither in `[0, 1]` nor `np.inf`. -/
theorem C2_counterexample :
    (CostOnlyVina testInd 100 (PyF.num (-7), "newpose") none).1.cost =
      PyR.num (-7) ∧
    PyR.num (-7) ≠ PyR.inf ∧ ¬ ((0 : ℝ) ≤ (-7 : ℝ)) := by
  refine ⟨?_, by simp, by norm_num⟩
  show (costOnlyVinaDock testInd (PyF.num (-7), "newpose")).1.cost = PyR.num (-7)
  norm_num [costOnlyVinaDock, PyF.toR]

theorem mrVinaVars_good (dspec : MRVDSpec) (scores : List PyF)
    (vst : List VType) (hmin : dspec.minS.good) (hmax : dspec.maxS.good) :
    ∀ v ∈ mrVinaVars dspec scores vst, 0 < v.w ∧ v.shape.valid := by
  intro v hv
  simp only [mrVinaVars] at hv
  obtain ⟨⟨sc, t⟩, hp, rfl⟩ := List.mem_map.1 hv
  cases t with
  | min => exact hmin
  | max => exact hmax

theorem mrVinaVars_ne_nil (dspec : MRVDSpec) (scores : List PyF)
    (vst : List VType) (h1 : scores ≠ []) (h2 : vst ≠ []) :
    mrVinaVars dspec scores vst ≠ [] := by
  cases scores with
  | nil => exact absurd rfl h1
  | cons a as =>
    cases vst with
    | nil => exact absurd rfl h2
    | cons b bs => simp [mrVinaVars]

/-- C2 (amended): for `Cost`, `CostMultiReceptors` and
`CostMultiReceptorsOnlyVina`, under a well-formed desirability
configuration (positive weights, ordered shape parameters, at least one
receptor for the vina-only multi variant) the written cost lies in
`[0, 1]` — `np.inf` appearing only via the weight-cutoff gate;
`CostOnlyVina` instead writes `cost = vina_score`, the raw affinity,
which is unbounded (and `np.inf` on hard failure). -/
theorem C2_cost_range :
    (∀ (ind : Individual) (qedVal saVal : ℚ) (dockResult : PyF × String)
        (dspec : CostDSpec), dspec.qed.good → dspec.sa_score.good →
        dspec.vina_score.good →
      ∃ ind', Cost ind qedVal saVal dockResult dspec = .ok ind' ∧
        costOk ind'.cost) ∧
    (∀ (ind : Individual) (molWt : ℚ) (dockResult : PyF × String)
        (wt_cutoff : Option ℚ),
      (CostOnlyVina ind molWt dockResult wt_cutoff).1.cost = PyR.inf ∨
      (CostOnlyVina ind molWt dockResult wt_cutoff).1.cost = dockResult.1.toR) ∧
    (∀ (ind : Individual) (qedVal saVal : ℚ)
        (dockResults : List (PyF × String)) (vst : List VType)
        (dspec : CostMRDSpec), dspec.qed.good → dspec.sa_score.good →
        dspec.vina_scores.minS.good → dspec.vina_scores.maxS.good →
      ∃ ind', CostMultiReceptors ind qedVal saVal dockResults vst dspec =
          .ok ind' ∧ costOk ind'.cost) ∧
    (∀ (ind : Individual) (molWt : ℚ)
        (dockResults : List (PyF × String)) (vst : List VType)
        (dspec : MRVDSpec) (wt_cutoff : Option ℚ),
        dspec.minS.good → dspec.maxS.good →
        dockResults ≠ [] → vst ≠ [] →
      ∃ (b : Bool) (ind' : Individual),
        CostMultiReceptorsOnlyVina ind molWt dockResults vst dspec wt_cutoff =
          (b, .ok ind') ∧ costOk ind'.cost) := by
  refine ⟨?_, ?_, ?_, ?_⟩
  · intro ind qedVal saVal dockResult dspec hq hsa hv
    obtain ⟨x, hca, hx0, hx1⟩ := costAgg_unit
      [⟨dspec.qed.w, dspec.qed.shape, .num qedVal⟩,
       ⟨dspec.sa_score.w, dspec.sa_score.shape, .num saVal⟩,
       ⟨dspec.vina_score.w, dspec.vina_score.shape, dockResult.1⟩]
      (by
        intro v hv'
        simp only [List.mem_cons, List.not_mem_nil, or_false] at hv'
        rcases hv' with rfl | rfl | rfl
        · exact hq
        · exact hsa
        · exact hv)
      (by simp)
    refine ⟨{ ind with
        qed := some qedVal
        sa_score := some saVal
        vina_score := some (.s dockResult.1)
        pdbqt := .s dockResult.2
        cost := PyR.num x }, ?_, ⟨hx0, hx1⟩⟩
    simp only [Cost]
    rw [hca]
  · intro ind molWt dockResult wtc
    cases wtc with
    | none => right; rfl
    | some c =>
      by_cases hc : c ≠ 0
      · by_cases hm : molWt > c
        · left
          simp [CostOnlyVina, hc, hm]
        · right
          simp [CostOnlyVina, hc, hm, costOnlyVinaDock]
      · right
        simp [CostOnlyVina, hc, costOnlyVinaDock]
  · intro ind qedVal saVal dockResults vst dspec hq hsa hmin hmax
    obtain ⟨x, hca, hx0, hx1⟩ := costAgg_unit
      ([⟨dspec.qed.w, dspec.qed.shape, .num qedVal⟩,
        ⟨dspec.sa_score.w, dspec.sa_score.shape, .num saVal⟩] ++
       mrVinaVars dspec.vina_scores (dockResults.map Prod.fst) vst)
      (by
        intro v hv'
        rcases List.mem_append.1 hv' with h | h
        · simp only [List.mem_cons, List.not_mem_nil, or_false] at h
          rcases h with rfl | rfl
          · exact hq
          · exact hsa
        · exact mrVinaVars_good dspec.vina_scores _ vst hmin hmax v h)
      (by simp)
    refine ⟨{ ind with
        qed := some qedVal
        sa_score := some saVal
        vina_score := some (.m (dockResults.map Prod.fst))
        pdbqt := .m (dockResults.map fun p : PyF × String => PdbqtV.s p.2)
        cost := PyR.num x }, ?_, ⟨hx0, hx1⟩⟩
    simp only [CostMultiReceptors]
    rw [hca]
  · intro ind molWt dockResults vst dspec wtc hmin hmax hd hv
    obtain ⟨x, hca, hx0, hx1⟩ := costAgg_unit
      (mrVinaVars dspec (dockResults.map Prod.fst) vst)
      (fun v hv' => mrVinaVars_good dspec _ vst hmin hmax v hv')
      (mrVinaVars_ne_nil dspec _ vst (by simpa using hd) hv)
    cases wtc with
    | none =>
      refine ⟨true, { ind with
          vina_score := some (.m (dockResults.map Prod.fst))
          pdbqt := .m (dockResults.map fun p : PyF × String => PdbqtV.s p.2)
          cost := PyR.num x }, ?_, ⟨hx0, hx1⟩⟩
      simp only [CostMultiReceptorsOnlyVina]
      rw [hca]
    | some c =>
      by_cases hc : c ≠ 0
      · by_cases hm : molWt > c
        · refine ⟨false, { ind with
              vina_score := some (.m (List.replicate dockResults.length .inf))
              pdbqt := .m (List.replicate dockResults.length ind.pdbqt)
              cost := PyR.inf }, ?_, trivial⟩
          simp only [CostMultiReceptorsOnlyVina]
          rw [if_pos hc, if_pos hm]
        · refine ⟨true, { ind with
              vina_score := some (.m (dockResults.map Prod.fst))
              pdbqt := .m (dockResults.map fun p : PyF × String => PdbqtV.s p.2)
              cost := PyR.num x }, ?_, ⟨hx0, hx1⟩⟩
          simp only [CostMultiReceptorsOnlyVina]
          rw [if_pos hc, if_neg hm, hca]
      · refine ⟨true, { ind with
            vina_score := some (.m (dockResults.map Prod.fst))
            pdbqt := .m (dockResults.map fun p : PyF × String => PdbqtV.s p.2)
            cost := PyR.num x }, ?_, ⟨hx0, hx1⟩⟩
        simp only [CostMultiReceptorsOnlyVina]
        rw [if_neg hc, hca]

/-- Witness for C2 at the shipped default configurations. -/
theorem C2_cost_range_witness :
    (∃ ind', Cost testInd (1/2) 4 (PyF.num (-7), "newpose") defaultCostDSpec =
        .ok ind' ∧ costOk ind'.cost) ∧
    ((CostOnlyVina testInd 100 (PyF.num (-7), "newpose") none).1.cost =
        PyR.inf ∨
      (CostOnlyVina testInd 100 (PyF.num (-7), "newpose") none).1.cost =
        (PyF.num (-7), "newpose").1.toR) ∧
    (∃ ind', CostMultiReceptors testInd (1/2) 4
        [(PyF.num (-7), "p1"), (PyF.inf, "p2")] [VType.min, VType.max]
        defaultCostMRDSpec = .ok ind' ∧ costOk ind'.cost) ∧
    (∃ (b : Bool) (ind' : Individual),
      CostMultiReceptorsOnlyVina testInd 300 [(PyF.num (-7), "p1")]
          [VType.min] defaultMRVDSpec (some 500) = (b, .ok ind') ∧
        costOk ind'.cost) :=
  ⟨C2_cost_range.1 testInd (1/2) 4 (PyF.num (-7), "newpose") defaultCostDSpec
      (by norm_num [DSpec.good, defaultCostDSpec, DShape.valid])
      (by norm_num [DSpec.good, defaultCostDSpec, DShape.valid])
      (by norm_num [DSpec.good, defaultCostDSpec, DShape.valid]),
   C2_cost_range.2.1 testInd 100 (PyF.num (-7), "newpose") none,
   C2_cost_range.2.2.1 testInd (1/2) 4 [(PyF.num (-7), "p1"), (PyF.inf, "p2")]
      [VType.min, VType.max] defaultCostMRDSpec
      (by norm_num [DSpec.good, defaultCostMRDSpec, DShape.valid])
      (by norm_num [DSpec.good, defaultCostMRDSpec, DShape.valid])
      (by norm_num [DSpec.good, defaultCostMRDSpec, defaultMRVDSpec, MRVDSpec.get, DShape.valid])
      (by norm_num [DSpec.good, defaultCostMRDSpec, defaultMRVDSpec, MRVDSpec.get, DShape.valid]),
   C2_cost_range.2.2.2 testInd 300 [(PyF.num (-7), "p1")] [VType.min]
      defaultMRVDSpec (some 500)
      (by norm_num [DSpec.good, defaultMRVDSpec, DShape.valid])
      (by norm_num [DSpec.good, defaultMRVDSpec, DShape.valid])
      (by simp) (by simp)⟩

/-! ## C9: the molecular-weight gate -/

/-- C9: `wt_cutoff = 0` is falsy in `if wt_cutoff:`, so the gate is
disabled and docking proceeds exactly as with `wt_cutoff = None`; for a
positive cutoff exceeded by the candidate's weight, both vina-only cost
functions assign `vina_score = cost = np.inf` without invoking vina. -/
theorem C9_wt_cutoff_gate :
    (∀ (ind : Individual) (molWt : ℚ) (dockResult : PyF × String),
      CostOnlyVina ind molWt dockResult (some 0) =
        costOnlyVinaDock ind dockResult ∧
      (CostOnlyVina ind molWt dockResult (some 0)).2 = true) ∧
    (∀ (ind : Individual) (molWt : ℚ) (dockResult : PyF × String) (c : ℚ),
      0 < c → molWt > c →
      CostOnlyVina ind molWt dockResult (some c) =
        ({ ind with vina_score := some (.s .inf), cost := .inf }, false)) ∧
    (∀ (ind : Individual) (molWt : ℚ) (dockResults : List (PyF × String))
        (vst : List VType) (dspec : MRVDSpec),
      CostMultiReceptorsOnlyVina ind molWt dockResults vst dspec (some 0) =
        CostMultiReceptorsOnlyVina ind molWt dockResults vst dspec none ∧
      (CostMultiReceptorsOnlyVina ind molWt dockResults vst dspec (some 0)).1 =
        true) ∧
    (∀ (ind : Individual) (molWt : ℚ) (dockResults : List (PyF × String))
        (vst : List VType) (dspec : MRVDSpec) (c : ℚ),
      0 < c → molWt > c →
      CostMultiReceptorsOnlyVina ind molWt dockResults vst dspec (some c) =
        (false, .ok { ind with
          vina_score := some (.m (List.replicate dockResults.length .inf))
          pdbqt := .m (List.replicate dockResults.length ind.pdbqt)
          cost := .inf })) := by
  refine ⟨?_, ?_, ?_, ?_⟩
  · intro ind molWt dockResult
    constructor
    · simp [CostOnlyVina]
    · simp [CostOnlyVina, costOnlyVinaDock]
  · intro ind molWt dockResult c hc hm
    simp only [CostOnlyVina]
    rw [if_pos hc.ne', if_pos hm]
  · intro ind molWt dockResults vst dspec
    constructor
    · simp [CostMultiReceptorsOnlyVina]
    · simp only [CostMultiReceptorsOnlyVina]
      cases costAgg (mrVinaVars dspec (dockResults.map Prod.fst) vst) with
      | error e => simp
      | ok x => simp
  · intro ind molWt dockResults vst dspec c hc hm
    simp only [CostMultiReceptorsOnlyVina]
    rw [if_pos hc.ne', if_pos hm]

/-- Witness for C9 at a candidate of weight `600` against cutoff `500`,
and at cutoff `0`. -/
theorem C9_wt_cutoff_gate_witness :
    ((0 : ℚ) < 500 ∧ (600 : ℚ) > 500) ∧
    CostOnlyVina testInd 600 (PyF.num (-7), "newpose") (some 0) =
      costOnlyVinaDock testInd (PyF.num (-7), "newpose") ∧
    CostOnlyVina testInd 600 (PyF.num (-7), "newpose") (some 500) =
      ({ testInd with vina_score := some (.s .inf), cost := .inf }, false) ∧
    CostMultiReceptorsOnlyVina testInd 600 [(PyF.num (-7), "p1")] [VType.min]
        defaultMRVDSpec (some 500) =
      (false, .ok { testInd with
        vina_score := some (.m (List.replicate 1 .inf))
        pdbqt := .m (List.replicate 1 testInd.pdbqt)
        cost := .inf }) :=
  ⟨⟨by norm_num, by norm_num⟩,
   (C9_wt_cutoff_gate.1 testInd 600 (PyF.num (-7), "newpose")).1,
   C9_wt_cutoff_gate.2.1 testInd 600 (PyF.num (-7), "newpose") 500
     (by norm_num) (by norm_num),
   C9_wt_cutoff_gate.2.2.2 testInd 600 [(PyF.num (-7), "p1")] [VType.min]
     defaultMRVDSpec 500 (by norm_num) (by norm_num)⟩

/-! ## C10: frame of the cost functions -/

/-- C10: every entry point hands back the candidate it was given with
only the applicable response attributes (`qed`, `sa_score`,
`vina_score`, `pdbqt`, `cost`) rewritten: the identity fields `smiles`,
`mol` and `idx` are unchanged by every call (in the source the same
`Individual` object is mutated in place and returned). -/
theorem C10_identity_frame :
    (∀ (ind : Individual) (qedVal saVal : ℚ) (dockResult : PyF × String)
        (dspec : CostDSpec),
      preservesId ind (Cost ind qedVal saVal dockResult dspec)) ∧
    (∀ (ind : Individual) (molWt : ℚ) (dockResult : PyF × String)
        (wt_cutoff : Option ℚ),
      sameIdentity ind (CostOnlyVina ind molWt dockResult wt_cutoff).1) ∧
    (∀ (ind : Individual) (qedVal saVal : ℚ)
        (dockResults : List (PyF × String)) (vst : List VType)
        (dspec : CostMRDSpec),
      preservesId ind (CostMultiReceptors ind qedVal saVal dockResults vst dspec)) ∧
    (∀ (ind : Individual) (molWt : ℚ) (dockResults : List (PyF × String))
        (vst : List VType) (dspec : MRVDSpec) (wt_cutoff : Option ℚ),
      preservesId ind
        (CostMultiReceptorsOnlyVina ind molWt dockResults vst dspec wt_cutoff).2) := by
  refine ⟨?_, ?_, ?_, ?_⟩
  · intro ind qedVal saVal dockResult dspec
    simp only [Cost]
    cases costAgg
        [⟨dspec.qed.w, dspec.qed.shape, .num qedVal⟩,
         ⟨dspec.sa_score.w, dspec.sa_score.shape, .num saVal⟩,
         ⟨dspec.vina_score.w, dspec.vina_score.shape, dockResult.1⟩] with
    | error e => exact trivial
    | ok x => exact ⟨rfl, rfl, rfl⟩
  · intro ind molWt dockResult wtc
    cases wtc with
    | none => exact ⟨rfl, rfl, rfl⟩
    | some c =>
      simp only [CostOnlyVina]
      split_ifs <;> exact ⟨rfl, rfl, rfl⟩
  · intro ind qedVal saVal dockResults vst dspec
    simp only [CostMultiReceptors]
    cases costAgg
        ([⟨dspec.qed.w, dspec.qed.shape, .num qedVal⟩,
          ⟨dspec.sa_score.w, dspec.sa_score.shape, .num saVal⟩] ++
         mrVinaVars dspec.vina_scores (dockResults.map Prod.fst) vst) with
    | error e => exact trivial
    | ok x => exact ⟨rfl, rfl, rfl⟩
  · intro ind molWt dockResults vst dspec wtc
    cases wtc with
    | none =>
      simp only [CostMultiReceptorsOnlyVina]
      cases costAgg (mrVinaVars dspec (dockResults.map Prod.fst) vst) with
      | error e => exact trivial
      | ok x => exact ⟨rfl, rfl, rfl⟩
    | some c =>
      simp only [CostMultiReceptorsOnlyVina]
      split_ifs with hc hm
      · exact ⟨rfl, rfl, rfl⟩
      · cases costAgg (mrVinaVars dspec (dockResults.map Prod.fst) vst) with
        | error e => exact trivial
        | ok x => exact ⟨rfl, rfl, rfl⟩
      · cases costAgg (mrVinaVars dspec (dockResults.map Prod.fst) vst) with
        | error e => exact trivial
        | ok x => exact ⟨rfl, rfl, rfl⟩

/-! ## C1: constrained docking and per-conformer failure -/

theorem vinaConstrLoop_first_failure (idx : ℕ) (ct : String)
    (prep : Conf → String) (run : Conf → Except String ℚ)
    (outBest : Conf → String) (good : List Conf) :
    ∀ (bad : Conf) (rest : List Conf) (best : PyF × String),
      (∀ c ∈ good, runOk (run c) = true) → runOk (run bad) = false →
      vinaConstrLoop idx ct prep run outBest (good ++ bad :: rest) best =
        ([vinaConfErrorBundle idx bad], .error "NameError") := by
  induction good with
  | nil =>
    intro bad rest best _ hbad
    cases hr : run bad with
    | error m =>
      simp only [List.nil_append]
      rw [vinaConstrLoop, hr]
    | ok q => rw [hr] at hbad; simp [runOk] at hbad
  | cons c cs ih =>
    intro bad rest best hgood hbad
    cases hr : run c with
    | error m =>
      have hc := hgood c (by simp)
      rw [hr] at hc
      simp [runOk] at hc
    | ok q =>
      rw [List.cons_append, vinaConstrLoop, hr]
      exact ih bad rest _ (fun u hu => hgood u (by simp [hu])) hbad

/-- Counterexample to C1: two conformers survive; the invocation for
conformer `0` fails and the one for conformer `1` would succeed with
score `-9`, yet evaluation does not continue: the diagnostic bundle for
conformer `0` is written and the call aborts (the warning message
interpolates the undefined name `i`, raising `NameError`), instead of
docking conformer `1` — and the `(+inf, pose)` sentinel is not returned
either, although not every conformer failed. -/
theorem C1_counterexample :
    vinadockConstrained 0 "origpose" "score_only" (fun i => i) (fun _ _ => 0) 2
        none (fun _ => false) (fun _ => "prep") failFirstRun (fun _ => "out") =
      (["0_conf_0_error.pbz2"], .error "NameError") ∧
    failFirstRun 1 = .ok (-9) :=
  ⟨rfl, rfl⟩

/-- C1 (amended): in constrained mode, the first conformer whose vina
invocation fails gets its diagnostic bundle recorded, after which the
whole candidate is aborted by a `NameError` raised while formatting the
warning message (line 269 references the undefined name `i`): the
remaining surviving conformers are never evaluated, any earlier
conformer's score is discarded, and the `(+inf, pose)` sentinel
assignment below the warning is unreachable. -/
theorem C1_constrained_first_failure (idx : ℕ) (origPdbqt : String)
    (constraint_type : String) (embed : ℕ → Conf) (rms : Conf → Conf → ℚ)
    (num_conf : ℕ) (minimum_conf_rms : Option ℚ) (clash : Conf → Bool)
    (prep : Conf → String) (run : Conf → Except String ℚ)
    (outBest : Conf → String) (good : List Conf) (bad : Conf)
    (rest : List Conf)
    (hct : constraint_type = "score_only" ∨ constraint_type = "local_only")
    (hsurv : (generate_conformers embed rms num_conf minimum_conf_rms).filter
        (fun c => !clash c) = good ++ bad :: rest)
    (hgood : ∀ c ∈ good, runOk (run c) = true)
    (hbad : runOk (run bad) = false) :
    vinadockConstrained idx origPdbqt constraint_type embed rms num_conf
        minimum_conf_rms clash prep run outBest =
      ([vinaConfErrorBundle idx bad], .error "NameError") := by
  rw [vinadockConstrained, if_pos hct, hsurv]
  exact vinaConstrLoop_first_failure idx constraint_type prep run outBest
    good bad rest (PyF.inf, origPdbqt) hgood hbad

/-- Witness for C1: one surviving conformer whose invocation fails. -/
theorem C1_constrained_first_failure_witness :
    (∀ c ∈ ([] : List Conf), runOk (failFirstRun c) = true) ∧
    runOk (failFirstRun 0) = false ∧
    vinadockConstrained 9 "pose9" "local_only" (fun i => i) (fun _ _ => 0) 1
        none (fun _ => false) (fun _ => "prep") failFirstRun (fun _ => "out") =
      ([vinaConfErrorBundle 9 0], .error "NameError") :=
  ⟨by simp, rfl,
   C1_constrained_first_failure 9 "pose9" "local_only" (fun i => i)
     (fun _ _ => 0) 1 none (fun _ => false) (fun _ => "prep") failFirstRun
     (fun _ => "out") [] 0 [] (Or.inr rfl) rfl (by simp) rfl⟩

end MolDrug
